import Mathlib

/-!
Verification of the task-manager application's core logic: the task-list
query builder (filtering, searching, multi-key sorting), the soft-delete /
restore / purge lifecycle, and the category lifecycle, shallowly embedded
from `src/tasks/views.py` and `src/tasks/models.py`.

Stores are modelled as lists of records; timestamps as integers; each view's
queryset construction as an explicit filter / sort over the store.  The
database `ORDER BY` of several keys is modelled as a stable sort by the
lexicographic comparison of an encoded key, with SQLite's placement of NULL
values (NULLs first under a plain ascending key, last under a descending
key); the views that matter here control NULL placement explicitly through
annotated flags, so this convention only fills in the corners the code
leaves to the database.
-/

namespace TaskApp

/-- The Task model (`src/tasks/models.py`, class `Task`): owner and optional
category are foreign keys (by id), `priority` is the stored string of
`PRIORITY_CHOICES`, `status` the stored integer of `STATUS_CHOICES`,
`due_date`/`deleted_at` optional timestamps, `is_deleted` the soft-delete
flag, plus the two tracking timestamps. -/
structure Task where
  id : Nat
  owner : Nat
  category : Option Nat
  title : String
  description : Option String
  priority : String
  status : Int
  due_date : Option Int
  is_deleted : Bool
  deleted_at : Option Int
  created_at : Int
  updated_at : Int
deriving DecidableEq, Repr

/-- The Category model (`src/tasks/models.py`, class `Category`). -/
structure Category where
  id : Nat
  owner : Nat
  name : String
deriving DecidableEq, Repr

/-- Python truthiness of an optional query-string value: present and
non-empty (`if category_id:` etc. in `TaskListView.get_queryset`). -/
def truthy : Option String → Bool
  | some s => !s.isEmpty
  | none => false

/-- Python `str.isdigit()` for the ASCII inputs the filters care about:
non-empty and all characters `0`-`9`. -/
def isdigit (s : String) : Bool := !s.isEmpty && s.data.all Char.isDigit

/-- Python `int(s)` on a digit string. -/
def strToNat (s : String) : Nat := s.data.foldl (fun n c => 10 * n + (c.toNat - 48)) 0

/-- `startsWithL n h`: the character list `n` is an initial segment of `h`. -/
def startsWithL : List Char → List Char → Bool
  | [], _ => true
  | _ :: _, [] => false
  | a :: as, b :: bs => a == b && startsWithL as bs

/-- `containsL n h`: the character list `n` occurs contiguously inside `h`. -/
def containsL (needle : List Char) : List Char → Bool
  | [] => needle.isEmpty
  | b :: bs => startsWithL needle (b :: bs) || containsL needle bs

/-- Case-insensitive containment, the `__icontains` lookup: the lowered
needle occurs inside the lowered haystack. -/
def icontains (needle haystack : String) : Bool :=
  containsL (needle.data.map Char.toLower) (haystack.data.map Char.toLower)

/-- The GET parameters `TaskListView.get_queryset` reads: `category`,
`status`, `priority`, `q`, `sort`, `order`; `none` is an absent parameter. -/
structure QueryParams where
  category : Option String
  status : Option String
  priority : Option String
  q : Option String
  sort : Option String
  order : Option String
deriving DecidableEq, Repr

/-- Step 2 of `TaskListView.get_queryset`: the category filter.  The token
`"none"` keeps only tasks without a category, a digit token keeps only tasks
of that category id, any other (or empty, or absent) token applies no
filter. -/
def categoryFilter (category_id : Option String) (t : Task) : Bool :=
  match category_id with
  | none => true
  | some s =>
    if s.isEmpty then true
    else if s == "none" then t.category == none
    else if isdigit s then t.category == some (strToNat s)
    else true

/-- Step 3 of `TaskListView.get_queryset`: the status filter, applied only
when the token is truthy and `isdigit`. -/
def statusFilter (status_filter : Option String) (t : Task) : Bool :=
  match status_filter with
  | none => true
  | some s => if !s.isEmpty && isdigit s then t.status == (strToNat s : Int) else true

/-- Step 4 of `TaskListView.get_queryset`: the priority filter, a plain
string equality when the token is truthy. -/
def priorityFilter (priority_filter : Option String) (t : Task) : Bool :=
  match priority_filter with
  | none => true
  | some s => if !s.isEmpty then t.priority == s else true

/-- Step 5 of `TaskListView.get_queryset`: the search filter,
`Q(title__icontains=q) | Q(description__icontains=q)`; a NULL description
matches nothing. -/
def searchFilter (q : Option String) (t : Task) : Bool :=
  match q with
  | none => true
  | some s =>
    if !s.isEmpty then
      icontains s t.title ||
        (match t.description with
          | some d => icontains s d
          | none => false)
    else true

/-- Steps 1-5 of `TaskListView.get_queryset`: the base query (owned by the
user, not soft-deleted) conjoined with the four optional filters. -/
def matchesFilters (u : Nat) (p : QueryParams) (t : Task) : Bool :=
  (t.owner == u && t.is_deleted == false) &&
    categoryFilter p.category t &&
    statusFilter p.status t &&
    priorityFilter p.priority t &&
    searchFilter p.q t

/-! ## Sort keys

Each `ORDER BY` column is encoded into integer components; a whole
`order_by(...)` clause becomes a 4-tuple of integers compared
lexicographically.  An optional column occupies two components: a NULL flag
and the value (SQLite places NULLs first under `ASC`, last under `DESC`). -/

/-- NULL flag of an optional column under plain `ASC` (NULLs first). -/
def optFlagAsc : Option Int → Int
  | none => 0
  | some _ => 1

/-- Value component of an optional column under plain `ASC`. -/
def optValAsc : Option Int → Int
  | none => 0
  | some v => v

/-- NULL flag of an optional column under plain `DESC` (NULLs last). -/
def optFlagDesc : Option Int → Int
  | none => 1
  | some _ => 0

/-- Value component of an optional column under plain `DESC` (negated). -/
def optValDesc : Option Int → Int
  | none => 0
  | some v => -v

/-- The annotated `due_date_null` flag of `TaskListView.get_queryset`
(`True` = 1 when `due_date` is NULL). -/
def dueDateNull : Option Int → Int
  | none => 1
  | some _ => 0

/-- The `Case/When` priority annotation of `TaskListView.get_queryset`:
`'high' → 3, 'medium' → 2, 'low' → 1, 'none' → 0`, default 0. -/
def priorityWeight (p : String) : Int :=
  if p == "high" then 3
  else if p == "medium" then 2
  else if p == "low" then 1
  else if p == "none" then 0
  else 0

/-- Lexicographic `≤` on encoded 4-component sort keys. -/
def key4LE (a b : Int × Int × Int × Int) : Bool :=
  if a.1 < b.1 then true
  else if b.1 < a.1 then false
  else if a.2.1 < b.2.1 then true
  else if b.2.1 < a.2.1 then false
  else if a.2.2.1 < b.2.2.1 then true
  else if b.2.2.1 < a.2.2.1 then false
  else decide (a.2.2.2 ≤ b.2.2.2)

/-- `order_by('priority_order', 'due_date', '-created_at')`. -/
def keyPrioAsc (t : Task) : Int × Int × Int × Int :=
  (priorityWeight t.priority, optFlagAsc t.due_date, optValAsc t.due_date, -t.created_at)

/-- `order_by('-priority_order', 'due_date', '-created_at')`. -/
def keyPrioDesc (t : Task) : Int × Int × Int × Int :=
  (-priorityWeight t.priority, optFlagAsc t.due_date, optValAsc t.due_date, -t.created_at)

/-- `order_by('due_date_null', 'due_date', '-created_at')`. -/
def keyDueAsc (t : Task) : Int × Int × Int × Int :=
  (dueDateNull t.due_date, optFlagAsc t.due_date, optValAsc t.due_date, -t.created_at)

/-- `order_by('-due_date_null', '-due_date', '-created_at')`. -/
def keyDueDesc (t : Task) : Int × Int × Int × Int :=
  (-dueDateNull t.due_date, optFlagDesc t.due_date, optValDesc t.due_date, -t.created_at)

/-- `order_by('status', '-created_at')`. -/
def keyStatusAsc (t : Task) : Int × Int × Int × Int :=
  (t.status, -t.created_at, 0, 0)

/-- `order_by('-status', '-created_at')`. -/
def keyStatusDesc (t : Task) : Int × Int × Int × Int :=
  (-t.status, -t.created_at, 0, 0)

/-- `order_by('created_at', '-created_at')`. -/
def keyCreatedAsc (t : Task) : Int × Int × Int × Int :=
  (t.created_at, -t.created_at, 0, 0)

/-- `order_by('-created_at', '-created_at')`. -/
def keyCreatedDesc (t : Task) : Int × Int × Int × Int :=
  (-t.created_at, -t.created_at, 0, 0)

/-- `order_by('-deleted_at')` of `TrashView.get_queryset`. -/
def keyTrash (t : Task) : Int × Int × Int × Int :=
  (optFlagDesc t.deleted_at, optValDesc t.deleted_at, 0, 0)

/-- The ordering relation a 4-component key induces on tasks. -/
def keyRel (k : Task → Int × Int × Int × Int) (a b : Task) : Prop :=
  key4LE (k a) (k b) = true

instance (k : Task → Int × Int × Int × Int) : DecidableRel (keyRel k) :=
  fun a b => inferInstanceAs (Decidable (key4LE (k a) (k b) = true))

/-- `order_by('title', '-created_at')`: string comparison on titles. -/
def titleAscRel (a b : Task) : Prop :=
  a.title < b.title ∨ (a.title = b.title ∧ b.created_at ≤ a.created_at)

/-- `order_by('-title', '-created_at')`. -/
def titleDescRel (a b : Task) : Prop :=
  b.title < a.title ∨ (a.title = b.title ∧ b.created_at ≤ a.created_at)

instance : DecidableRel titleAscRel :=
  fun a b =>
    inferInstanceAs (Decidable (a.title < b.title ∨ (a.title = b.title ∧ b.created_at ≤ a.created_at)))

instance : DecidableRel titleDescRel :=
  fun a b =>
    inferInstanceAs (Decidable (b.title < a.title ∨ (a.title = b.title ∧ b.created_at ≤ a.created_at)))

/-- The sort keys `TaskListView.get_queryset` accepts. -/
def validSortKeys : List String := ["due_date", "title", "status", "priority", "created_at"]

/-- Step 6 of `TaskListView.get_queryset`: the sort dispatch on the
resolved `sort_key` and `order`; an unrecognized sort key falls back to the
null-aware due-date ascending order. -/
def sortDispatch (sort_key order : String) (queryset : List Task) : List Task :=
  if validSortKeys.contains sort_key then
    if sort_key == "priority" then
      if order == "asc" then List.insertionSort (keyRel keyPrioAsc) queryset
      else List.insertionSort (keyRel keyPrioDesc) queryset
    else if sort_key == "due_date" then
      if order == "asc" then List.insertionSort (keyRel keyDueAsc) queryset
      else List.insertionSort (keyRel keyDueDesc) queryset
    else if sort_key == "title" then
      if order == "desc" then List.insertionSort titleDescRel queryset
      else List.insertionSort titleAscRel queryset
    else if sort_key == "status" then
      if order == "desc" then List.insertionSort (keyRel keyStatusDesc) queryset
      else List.insertionSort (keyRel keyStatusAsc) queryset
    else
      if order == "desc" then List.insertionSort (keyRel keyCreatedDesc) queryset
      else List.insertionSort (keyRel keyCreatedAsc) queryset
  else
    List.insertionSort (keyRel keyDueAsc) queryset

/-- `TaskListView.get_queryset`: base query (owner's non-deleted tasks)
conjoined with the four filters, then the sort dispatch on `sort`
(default `due_date`) and `order` (default `asc`). -/
def get_queryset (store : List Task) (u : Nat) (p : QueryParams) : List Task :=
  sortDispatch (p.sort.getD "due_date") (p.order.getD "asc")
    (store.filter (matchesFilters u p))

/-! ## Task lifecycle (`views.py`) -/

/-- `get_object_or_404(Task, pk=pk, user=request.user)`: the lookup used by
the delete, restore, status-update and complete views — note no
`is_deleted` condition. -/
def lookupTask (store : List Task) (u pk : Nat) : Option Task :=
  store.find? (fun t => t.id == pk && t.owner == u)

/-- The field updates of `TaskDeleteView.post` plus the `auto_now`
timestamp. -/
def softDeleteTask (t : Task) (now : Int) : Task :=
  { t with is_deleted := true, deleted_at := some now, updated_at := now }

/-- The field updates of `TaskRestoreView.post` plus the `auto_now`
timestamp. -/
def restoreTask (t : Task) (now : Int) : Task :=
  { t with is_deleted := false, deleted_at := none, updated_at := now }

/-- `TaskDeleteView.post`: 404 when no owned task has the id, else save the
soft-deleted task. -/
def softDeletePost (store : List Task) (u pk : Nat) (now : Int) : Option (List Task) :=
  match lookupTask store u pk with
  | none => none
  | some _ =>
    some (store.map (fun t => if t.id == pk && t.owner == u then softDeleteTask t now else t))

/-- `TaskRestoreView.post`: 404 when no owned task has the id, else save the
restored task.  The lookup does not require `is_deleted = true`. -/
def restorePost (store : List Task) (u pk : Nat) (now : Int) : Option (List Task) :=
  match lookupTask store u pk with
  | none => none
  | some _ =>
    some (store.map (fun t => if t.id == pk && t.owner == u then restoreTask t now else t))

/-- `TaskBulkDeleteView.post`: over the owner's soft-deleted tasks, delete
those whose id is in `task_ids` when the list is non-empty, all of them when
it is empty. -/
def bulkDeletePost (store : List Task) (u : Nat) (task_ids : List Nat) : List Task :=
  if !task_ids.isEmpty then
    store.filter (fun t => !(t.owner == u && t.is_deleted == true && task_ids.contains t.id))
  else
    store.filter (fun t => !(t.owner == u && t.is_deleted == true))

/-- The base queryset of `TaskListView.get_queryset` (owner's non-deleted
tasks), the spec's `list_active`. -/
def list_active (store : List Task) (u : Nat) : List Task :=
  store.filter (fun t => t.owner == u && t.is_deleted == false)

/-- `TrashView.get_queryset`: the owner's soft-deleted tasks ordered by
`-deleted_at`. -/
def list_trash (store : List Task) (u : Nat) : List Task :=
  List.insertionSort (keyRel keyTrash)
    (store.filter (fun t => t.owner == u && t.is_deleted == true))

/-- `TaskUpdateView.get_queryset`: the owner's non-deleted tasks. -/
def updateGetQueryset (store : List Task) (u : Nat) : List Task :=
  store.filter (fun t => t.owner == u && t.is_deleted == false)

/-- `TaskDetailView.get_queryset`: the owner's non-deleted tasks. -/
def detailGetQueryset (store : List Task) (u : Nat) : List Task :=
  store.filter (fun t => t.owner == u && t.is_deleted == false)

/-- Object lookup of `TaskUpdateView` (`get_object` over its queryset):
`none` is the 404. -/
def updateLookup (store : List Task) (u pk : Nat) : Option Task :=
  (updateGetQueryset store u).find? (fun t => t.id == pk)

/-- Object lookup of `TaskDetailView`: `none` is the 404. -/
def detailLookup (store : List Task) (u pk : Nat) : Option Task :=
  (detailGetQueryset store u).find? (fun t => t.id == pk)

/-! ## Category lifecycle (`views.py`) -/

/-- `CategoryUpdateView.get_queryset` + `get_object`: the owner's category
with the id. -/
def findCategory (cats : List Category) (u pk : Nat) : Option Category :=
  cats.find? (fun c => c.id == pk && c.owner == u)

/-- Outcome of a category rename. -/
inductive RenameResult
  | notFound
  | duplicateName
  | updated (cats : List Category)
deriving DecidableEq, Repr

/-- `CategoryUpdateView.form_valid`: reject when another category of the
same owner (the edited one excluded by pk) already has the new name, else
save the renamed category. -/
def renameCategory (cats : List Category) (u pk : Nat) (new_name : String) : RenameResult :=
  match findCategory cats u pk with
  | none => .notFound
  | some _ =>
    if cats.any (fun d => d.owner == u && d.name == new_name && !(d.id == pk)) then
      .duplicateName
    else
      .updated (cats.map (fun d => if d.id == pk then { d with name := new_name } else d))

/-- `CategoryDeleteView` with the model's `on_delete=SET_NULL`: remove the
owner's category and clear the `category` reference of every task that
held it; tasks themselves are never deleted. -/
def deleteCategory (cats : List Category) (tasks : List Task) (u pk : Nat) :
    Option (List Category × List Task) :=
  match findCategory cats u pk with
  | none => none
  | some _ =>
    some (cats.filter (fun c => !(c.id == pk)),
      tasks.map (fun t => if t.category == some pk then { t with category := none } else t))

/-! ## Basic facts about the sort comparators -/

theorem key4LE_iff (a b : Int × Int × Int × Int) :
    key4LE a b = true ↔
      a.1 < b.1 ∨ (a.1 = b.1 ∧ (a.2.1 < b.2.1 ∨ (a.2.1 = b.2.1 ∧
        (a.2.2.1 < b.2.2.1 ∨ (a.2.2.1 = b.2.2.1 ∧ a.2.2.2 ≤ b.2.2.2))))) := by
  unfold key4LE
  split_ifs <;> simp <;> omega

theorem key4LE_total (a b : Int × Int × Int × Int) :
    key4LE a b = true ∨ key4LE b a = true := by
  rw [key4LE_iff, key4LE_iff]
  omega

theorem key4LE_trans {a b c : Int × Int × Int × Int}
    (hab : key4LE a b = true) (hbc : key4LE b c = true) : key4LE a c = true := by
  rw [key4LE_iff] at hab hbc ⊢
  omega

instance (k : Task → Int × Int × Int × Int) : IsTotal Task (keyRel k) :=
  ⟨fun a b => key4LE_total (k a) (k b)⟩

instance (k : Task → Int × Int × Int × Int) : IsTrans Task (keyRel k) :=
  ⟨fun _ _ _ hab hbc => key4LE_trans hab hbc⟩

/-- Every branch of the sort dispatch permutes its input. -/
theorem sortDispatch_perm (sort_key order : String) (l : List Task) :
    (sortDispatch sort_key order l).Perm l := by
  unfold sortDispatch
  split_ifs <;> exact List.perm_insertionSort _ _

/-- Membership in a sorted branch is membership in the input. -/
theorem mem_sortDispatch {sort_key order : String} {l : List Task} {t : Task} :
    t ∈ sortDispatch sort_key order l ↔ t ∈ l :=
  (sortDispatch_perm sort_key order l).mem_iff

/-- Membership in the full queryset is ownership, liveness and the filter
conjunction. -/
theorem mem_get_queryset {store : List Task} {u : Nat} {p : QueryParams} {t : Task} :
    t ∈ get_queryset store u p ↔ t ∈ store ∧ matchesFilters u p t = true := by
  unfold get_queryset
  rw [mem_sortDispatch, List.mem_filter]

/-! ## Spec-side filter predicates (written from §4.1 of the spec) -/

/-- The category filter's contract: the token `"none"` demands an absent
category, an identifier (digit) token demands that category id; an empty,
absent or unrecognized token constrains nothing. -/
def CategoryOk : Option String → Task → Prop
  | none, _ => True
  | some s, t =>
    s ≠ "" →
      (s = "none" → t.category = none) ∧
      (s ≠ "none" → isdigit s = true → t.category = some (strToNat s))

/-- The status filter's contract: an integer token demands that status
code; anything else constrains nothing. -/
def StatusOk : Option String → Task → Prop
  | none, _ => True
  | some s, t => isdigit s = true → t.status = (strToNat s : Int)

/-- The priority filter's contract: a non-empty token demands that priority
value. -/
def PriorityOk : Option String → Task → Prop
  | none, _ => True
  | some s, t => s ≠ "" → t.priority = s

/-- The search filter's contract: the token occurs case-insensitively in
the title or in the description (an OR between the two fields). -/
def SearchOk : Option String → Task → Prop
  | none, _ => True
  | some s, t =>
    s ≠ "" →
      (icontains s t.title = true ∨ ∃ d, t.description = some d ∧ icontains s d = true)

theorem isdigit_ne_empty {s : String} (h : isdigit s = true) : s ≠ "" := by
  intro he
  rw [he] at h
  exact absurd h (by decide)

theorem categoryFilter_iff (c : Option String) (t : Task) :
    categoryFilter c t = true ↔ CategoryOk c t := by
  cases c with
  | none => simp [categoryFilter, CategoryOk]
  | some s =>
    by_cases h0 : s = ""
    · subst h0
      simp [categoryFilter, CategoryOk, String.isEmpty_iff]
    · by_cases h1 : s = "none"
      · subst h1
        simp [categoryFilter, CategoryOk, String.isEmpty_iff]
      · by_cases h2 : isdigit s = true
        · simp [categoryFilter, CategoryOk, String.isEmpty_iff, h0, h1, h2]
        · simp [categoryFilter, CategoryOk, String.isEmpty_iff, h0, h1, h2]

theorem statusFilter_iff (c : Option String) (t : Task) :
    statusFilter c t = true ↔ StatusOk c t := by
  cases c with
  | none => simp [statusFilter, StatusOk]
  | some s =>
    by_cases h2 : isdigit s = true
    · have h0 : s ≠ "" := isdigit_ne_empty h2
      simp [statusFilter, StatusOk, String.isEmpty_iff, h0, h2]
    · simp [statusFilter, StatusOk, h2]

theorem priorityFilter_iff (c : Option String) (t : Task) :
    priorityFilter c t = true ↔ PriorityOk c t := by
  cases c with
  | none => simp [priorityFilter, PriorityOk]
  | some s =>
    by_cases h0 : s = ""
    · subst h0
      simp [priorityFilter, PriorityOk, String.isEmpty_iff]
    · simp [priorityFilter, PriorityOk, String.isEmpty_iff, h0]

theorem searchFilter_iff (c : Option String) (t : Task) :
    searchFilter c t = true ↔ SearchOk c t := by
  cases c with
  | none => simp [searchFilter, SearchOk]
  | some s =>
    by_cases h0 : s = ""
    · subst h0
      simp [searchFilter, SearchOk, String.isEmpty_iff]
    · cases hd : t.description with
      | none => simp [searchFilter, SearchOk, String.isEmpty_iff, h0, hd]
      | some d => simp [searchFilter, SearchOk, String.isEmpty_iff, h0, hd]

/-- C1: for every owner identity and filter configuration, the query
builder returns exactly the owner's non-soft-deleted tasks that satisfy
every supplied filter, the filters conjoined with AND; the search filter
holds iff the token occurs case-insensitively in the title or in the
description (an OR between the two fields).  Tasks of other owners and
soft-deleted tasks never appear. -/
theorem query_builder_returns_exactly_the_matching_tasks
    (store : List Task) (u : Nat) (p : QueryParams) (t : Task) :
    t ∈ get_queryset store u p ↔
      t ∈ store ∧ t.owner = u ∧ t.is_deleted = false ∧
        CategoryOk p.category t ∧ StatusOk p.status t ∧
        PriorityOk p.priority t ∧ SearchOk p.q t := by
  rw [mem_get_queryset]
  unfold matchesFilters
  simp only [Bool.and_eq_true, beq_iff_eq, categoryFilter_iff, statusFilter_iff,
    priorityFilter_iff, searchFilter_iff, and_assoc]

/-! ## Ordering properties of the priority and due-date sorts -/

/-- Plain ascending comparison of optional due dates (absent dates compare
first, as the plain `ASC` key encodes them). -/
def optLE : Option Int → Option Int → Prop
  | none, _ => True
  | some _, none => False
  | some x, some y => x ≤ y

/-- The secondary/tertiary tie-break of the priority sort: within equal
priority weight, due dates ascend; within equal weight and equal due date,
creation timestamps descend. -/
def prioTie (a b : Task) : Prop :=
  (priorityWeight a.priority = priorityWeight b.priority → optLE a.due_date b.due_date) ∧
  (priorityWeight a.priority = priorityWeight b.priority → a.due_date = b.due_date →
    b.created_at ≤ a.created_at)

/-- Adjacent order under the ascending due-date sort: an absent due date is
never followed by a present one, and present due dates ascend. -/
def dueAscOk (a b : Task) : Prop :=
  (a.due_date = none → b.due_date = none) ∧
  (∀ x y, a.due_date = some x → b.due_date = some y → x ≤ y)

/-- Adjacent order under the descending due-date sort: a present due date
is never followed by an absent one, and present due dates descend. -/
def dueDescOk (a b : Task) : Prop :=
  (b.due_date = none → a.due_date = none) ∧
  (∀ x y, a.due_date = some x → b.due_date = some y → y ≤ x)

theorem keyRel_prioAsc_elim {a b : Task} (h : keyRel keyPrioAsc a b) :
    priorityWeight a.priority ≤ priorityWeight b.priority ∧ prioTie a b := by
  unfold keyRel at h
  have h' := (key4LE_iff _ _).mp h
  simp only [keyPrioAsc] at h'
  cases hda : a.due_date <;> cases hdb : b.due_date <;>
    simp [hda, hdb, optFlagAsc, optValAsc, prioTie, optLE] at h' ⊢ <;> omega

theorem keyRel_prioDesc_elim {a b : Task} (h : keyRel keyPrioDesc a b) :
    priorityWeight b.priority ≤ priorityWeight a.priority ∧ prioTie a b := by
  unfold keyRel at h
  have h' := (key4LE_iff _ _).mp h
  simp only [keyPrioDesc] at h'
  cases hda : a.due_date <;> cases hdb : b.due_date <;>
    simp [hda, hdb, optFlagAsc, optValAsc, prioTie, optLE] at h' ⊢ <;> omega

theorem keyRel_dueAsc_elim {a b : Task} (h : keyRel keyDueAsc a b) : dueAscOk a b := by
  unfold keyRel at h
  have h' := (key4LE_iff _ _).mp h
  simp only [keyDueAsc] at h'
  cases hda : a.due_date <;> cases hdb : b.due_date <;>
    simp [hda, hdb, dueDateNull, optFlagAsc, optValAsc, dueAscOk] at h' ⊢ <;> omega

theorem keyRel_dueDesc_elim {a b : Task} (h : keyRel keyDueDesc a b) : dueDescOk a b := by
  unfold keyRel at h
  have h' := (key4LE_iff _ _).mp h
  simp only [keyDueDesc] at h'
  cases hda : a.due_date <;> cases hdb : b.due_date <;>
    simp [hda, hdb, dueDateNull, optFlagDesc, optValDesc, dueDescOk] at h' ⊢ <;> omega

theorem get_queryset_prio_asc (store : List Task) (u : Nat) (c st pf q : Option String) :
    get_queryset store u ⟨c, st, pf, q, some "priority", some "asc"⟩ =
      List.insertionSort (keyRel keyPrioAsc)
        (store.filter (matchesFilters u ⟨c, st, pf, q, some "priority", some "asc"⟩)) := rfl

theorem get_queryset_prio_desc (store : List Task) (u : Nat) (c st pf q : Option String) :
    get_queryset store u ⟨c, st, pf, q, some "priority", some "desc"⟩ =
      List.insertionSort (keyRel keyPrioDesc)
        (store.filter (matchesFilters u ⟨c, st, pf, q, some "priority", some "desc"⟩)) := rfl

theorem get_queryset_due_asc (store : List Task) (u : Nat) (c st pf q : Option String) :
    get_queryset store u ⟨c, st, pf, q, some "due_date", some "asc"⟩ =
      List.insertionSort (keyRel keyDueAsc)
        (store.filter (matchesFilters u ⟨c, st, pf, q, some "due_date", some "asc"⟩)) := rfl

theorem get_queryset_due_desc (store : List Task) (u : Nat) (c st pf q : Option String) :
    get_queryset store u ⟨c, st, pf, q, some "due_date", some "desc"⟩ =
      List.insertionSort (keyRel keyDueDesc)
        (store.filter (matchesFilters u ⟨c, st, pf, q, some "due_date", some "desc"⟩)) := rfl

/-- C2: under `sort_key = priority` each task's priority is weighted
`none=0, low=1, medium=2, high=3`; the ascending result is ordered by
non-decreasing weight and the descending result by non-increasing weight;
within equal weight BOTH orders break ties the same way — due date
ascending, then creation time descending (the secondary and tertiary keys
do not flip with `order`, witnessed both by the tie-break holding of both
outputs and by the two comparators agreeing on equal-weight pairs). -/
theorem priority_sort_weights_and_tiebreaks
    (store : List Task) (u : Nat) (c st pf q : Option String) :
    (priorityWeight "none" = 0 ∧ priorityWeight "low" = 1 ∧
      priorityWeight "medium" = 2 ∧ priorityWeight "high" = 3) ∧
    (get_queryset store u ⟨c, st, pf, q, some "priority", some "asc"⟩).Pairwise
      (fun a b => priorityWeight a.priority ≤ priorityWeight b.priority) ∧
    (get_queryset store u ⟨c, st, pf, q, some "priority", some "desc"⟩).Pairwise
      (fun a b => priorityWeight b.priority ≤ priorityWeight a.priority) ∧
    (get_queryset store u ⟨c, st, pf, q, some "priority", some "asc"⟩).Pairwise prioTie ∧
    (get_queryset store u ⟨c, st, pf, q, some "priority", some "desc"⟩).Pairwise prioTie ∧
    (∀ a b : Task, priorityWeight a.priority = priorityWeight b.priority →
      (keyRel keyPrioAsc a b ↔ keyRel keyPrioDesc a b)) := by
  have hA : List.Sorted (keyRel keyPrioAsc)
      (get_queryset store u ⟨c, st, pf, q, some "priority", some "asc"⟩) := by
    rw [get_queryset_prio_asc]
    exact List.sorted_insertionSort _ _
  have hD : List.Sorted (keyRel keyPrioDesc)
      (get_queryset store u ⟨c, st, pf, q, some "priority", some "desc"⟩) := by
    rw [get_queryset_prio_desc]
    exact List.sorted_insertionSort _ _
  refine ⟨by refine ⟨by decide, by decide, by decide, by decide⟩,
    hA.imp (fun hab => (keyRel_prioAsc_elim hab).1),
    hD.imp (fun hab => (keyRel_prioDesc_elim hab).1),
    hA.imp (fun hab => (keyRel_prioAsc_elim hab).2),
    hD.imp (fun hab => (keyRel_prioDesc_elim hab).2),
    fun a b hw => ?_⟩
  unfold keyRel
  rw [key4LE_iff, key4LE_iff]
  simp only [keyPrioAsc, keyPrioDesc]
  omega

/-- C3 counterexample: with `order = desc` and `sort_key = due_date`, a
task with an absent due date is returned FIRST, before a task that has a
due date — not after it as the claim states. -/
theorem due_date_desc_places_null_first :
    (get_queryset
        [⟨1, 1, none, "a", none, "none", 0, some 5, false, none, 1, 0⟩,
         ⟨2, 1, none, "b", none, "none", 0, none, false, none, 2, 0⟩]
        1 ⟨none, none, none, none, some "due_date", some "desc"⟩).map Task.due_date
      = [none, some 5] := by decide

/-- C3 (amended): under `sort_key = due_date` with `order = asc`, every
task with an absent due date is placed after every task with a present one
(and present due dates ascend); with `order = desc` the absent-due-date
tasks are instead grouped at the beginning (and present due dates
descend). -/
theorem due_date_sort_null_placement
    (store : List Task) (u : Nat) (c st pf q : Option String) :
    (get_queryset store u ⟨c, st, pf, q, some "due_date", some "asc"⟩).Pairwise dueAscOk ∧
    (get_queryset store u ⟨c, st, pf, q, some "due_date", some "desc"⟩).Pairwise dueDescOk := by
  constructor
  · rw [get_queryset_due_asc]
    exact (List.sorted_insertionSort _ _).imp (fun hab => keyRel_dueAsc_elim hab)
  · rw [get_queryset_due_desc]
    exact (List.sorted_insertionSort _ _).imp (fun hab => keyRel_dueDesc_elim hab)

/-! ## Lifecycle claims -/

/-- C4 counterexample: the restore endpoint succeeds on a task that is NOT
soft-deleted (`is_deleted = false`, `deleted_at` absent): the lookup only
requires id and owner, so restoring an active task is accepted rather than
rejected. -/
theorem restore_accepts_an_active_task :
    (⟨1, 1, none, "a", none, "none", 0, none, false, none, 1, 0⟩ : Task).is_deleted = false ∧
    restorePost [⟨1, 1, none, "a", none, "none", 0, none, false, none, 1, 0⟩] 1 1 7
      = some [⟨1, 1, none, "a", none, "none", 0, none, false, none, 1, 7⟩] := by decide

/-- C4 (amended): restore succeeds for every owned task regardless of its
`is_deleted` state — the view enforces no "currently soft-deleted"
precondition — and the saved task has `is_deleted = false` and
`deleted_at` absent (a no-op on those fields when the task was active). -/
theorem restore_requires_only_ownership
    (store : List Task) (u pk : Nat) (now : Int) (t : Task)
    (ht : t ∈ store) (hid : t.id = pk) (hu : t.owner = u) :
    (restorePost store u pk now).isSome = true ∧
    ∀ out, restorePost store u pk now = some out →
      restoreTask t now ∈ out ∧ (restoreTask t now).is_deleted = false ∧
        (restoreTask t now).deleted_at = none := by
  have hfind : (lookupTask store u pk).isSome = true := by
    unfold lookupTask
    rw [List.find?_isSome]
    exact ⟨t, ht, by simp [hid, hu]⟩
  constructor
  · unfold restorePost
    cases hl : lookupTask store u pk with
    | none => rw [hl] at hfind; simp at hfind
    | some _ => simp
  · intro out hout
    unfold restorePost at hout
    cases hl : lookupTask store u pk with
    | none => rw [hl] at hfind; simp at hfind
    | some _ =>
      rw [hl] at hout
      have : (if t.id == pk && t.owner == u then restoreTask t now else t) ∈
          store.map (fun s => if s.id == pk && s.owner == u then restoreTask s now else s) :=
        List.mem_map_of_mem _ ht
      rw [if_pos (by simp [hid, hu])] at this
      have hout' : out =
          store.map (fun s => if s.id == pk && s.owner == u then restoreTask s now else s) := by
        simpa using hout.symm
      exact ⟨hout' ▸ this, rfl, rfl⟩

/-- C4 witness: a concrete soft-deleted owned task is restorable. -/
theorem restore_requires_only_ownership_witness :
    (restorePost [⟨1, 1, none, "a", none, "none", 0, none, true, some 3, 1, 0⟩] 1 1 7).isSome
        = true ∧
    ∀ out, restorePost [⟨1, 1, none, "a", none, "none", 0, none, true, some 3, 1, 0⟩] 1 1 7
        = some out →
      restoreTask ⟨1, 1, none, "a", none, "none", 0, none, true, some 3, 1, 0⟩ 7 ∈ out ∧
        (restoreTask ⟨1, 1, none, "a", none, "none", 0, none, true, some 3, 1, 0⟩ 7).is_deleted
            = false ∧
        (restoreTask ⟨1, 1, none, "a", none, "none", 0, none, true, some 3, 1, 0⟩ 7).deleted_at
            = none :=
  restore_requires_only_ownership
    [⟨1, 1, none, "a", none, "none", 0, none, true, some 3, 1, 0⟩] 1 1 7
    ⟨1, 1, none, "a", none, "none", 0, none, true, some 3, 1, 0⟩
    (by decide) rfl rfl

/-- C5: the bulk purge removes exactly the owner's soft-deleted tasks whose
id is in the supplied set (all of the owner's soft-deleted tasks when the
set is empty); ids that do not name an owned soft-deleted task are ignored,
active tasks and other owners' tasks are never removed, and a purged task
appears in no later `list_active` or `list_trash` result. -/
theorem bulk_delete_purges_exactly_the_selected_trash
    (store : List Task) (u : Nat) (ids : List Nat) (t : Task) :
    (t ∈ bulkDeletePost store u ids ↔
      t ∈ store ∧ ¬(t.owner = u ∧ t.is_deleted = true ∧ (ids = [] ∨ t.id ∈ ids))) ∧
    (t.owner = u → t.is_deleted = true → (ids = [] ∨ t.id ∈ ids) →
      t ∉ list_active (bulkDeletePost store u ids) u ∧
      t ∉ list_trash (bulkDeletePost store u ids) u) := by
  have hmem : t ∈ bulkDeletePost store u ids ↔
      t ∈ store ∧ ¬(t.owner = u ∧ t.is_deleted = true ∧ (ids = [] ∨ t.id ∈ ids)) := by
    unfold bulkDeletePost
    cases hids : ids with
    | nil => cases hdel : t.is_deleted <;> simp [List.mem_filter, hdel]
    | cons i rest =>
      cases hdel : t.is_deleted <;> simp [List.mem_filter, hdel] <;> tauto
  refine ⟨hmem, fun h1 h2 h3 => ?_⟩
  have hnotin : t ∉ bulkDeletePost store u ids := fun hin =>
    (hmem.mp hin).2 ⟨h1, h2, h3⟩
  constructor
  · intro hin
    exact hnotin (List.mem_filter.mp hin).1
  · intro hin
    have : t ∈ (bulkDeletePost store u ids).filter
        (fun s => s.owner == u && s.is_deleted == true) := by
      unfold list_trash at hin
      exact (List.perm_insertionSort _ _).mem_iff.mp hin
    exact hnotin (List.mem_filter.mp this).1

/-- C6: a non-integer status token is silently ignored — the query behaves
exactly as if no status filter were supplied — while an all-digits token is
applied as an equality filter on the status code. -/
theorem status_filter_applied_iff_digits
    (store : List Task) (u : Nat) (p : QueryParams) (s : String) :
    (isdigit s = false →
      get_queryset store u { p with status := some s } =
        get_queryset store u { p with status := none }) ∧
    (isdigit s = true →
      ∀ t ∈ get_queryset store u { p with status := some s },
        t.status = (strToNat s : Int)) := by
  constructor
  · intro hs
    unfold get_queryset
    have : store.filter (matchesFilters u { p with status := some s }) =
        store.filter (matchesFilters u { p with status := none }) := by
      apply List.filter_congr
      intro t _
      unfold matchesFilters statusFilter
      simp [hs]
    rw [this]
  · intro hs t hmem
    have h := (mem_get_queryset.mp hmem).2
    unfold matchesFilters at h
    simp only [Bool.and_eq_true] at h
    obtain ⟨⟨⟨-, hst⟩, -⟩, -⟩ := h
    have hne : s.isEmpty = false := by
      rw [Bool.eq_false_iff]
      intro htrue
      exact isdigit_ne_empty hs ((String.isEmpty_iff s).mp htrue)
    unfold statusFilter at hst
    simpa [hne, hs] using hst

/-! ## Category claims -/

theorem findCategory_mem {cats : List Category} {u pk : Nat} {c : Category}
    (hc : findCategory cats u pk = some c) :
    c ∈ cats ∧ c.id = pk ∧ c.owner = u := by
  unfold findCategory at hc
  refine ⟨List.mem_of_find?_eq_some hc, ?_⟩
  have h := List.find?_some hc
  simpa using h

theorem renameCategory_dup_iff (cats : List Category) (u pk : Nat) (nm : String)
    (c : Category) (hc : findCategory cats u pk = some c) :
    (renameCategory cats u pk nm = .duplicateName ↔
      ∃ d ∈ cats, d.owner = u ∧ d.name = nm ∧ d.id ≠ pk) := by
  unfold renameCategory
  rw [hc]
  by_cases hany : cats.any (fun d => d.owner == u && d.name == nm && !(d.id == pk)) = true
  · rw [if_pos hany]
    simp only [true_iff]
    obtain ⟨d, hd, hpred⟩ := List.any_eq_true.mp hany
    refine ⟨d, hd, ?_⟩
    simpa [and_assoc] using hpred
  · rw [if_neg hany]
    constructor
    · intro h
      exact absurd h (by simp)
    · intro ⟨d, hd, hpred⟩
      refine absurd (List.any_eq_true.mpr ⟨d, hd, ?_⟩) hany
      simpa [and_assoc] using hpred

theorem renameCategory_updates (cats : List Category) (u pk : Nat) (nm : String)
    (c : Category) (hc : findCategory cats u pk = some c)
    (hno : ∀ d ∈ cats, d.owner = u → d.name = nm → d.id = pk) :
    ∃ cats', renameCategory cats u pk nm = .updated cats' ∧
      ∃ c' ∈ cats', c'.id = pk ∧ c'.name = nm := by
  obtain ⟨hcmem, hcid, -⟩ := findCategory_mem hc
  have hany : cats.any (fun d => d.owner == u && d.name == nm && !(d.id == pk)) = false := by
    rw [List.any_eq_false]
    intro d hd hpred
    simp only [Bool.and_eq_true, beq_iff_eq, Bool.not_eq_true', beq_eq_false_iff_ne] at hpred
    exact hpred.2 (hno d hd hpred.1.1 hpred.1.2)
  refine ⟨cats.map (fun d => if d.id == pk then { d with name := nm } else d), ?_, ?_⟩
  · unfold renameCategory
    rw [hc, if_neg (by simp [hany])]
  · refine ⟨{ c with name := nm }, ?_, hcid, rfl⟩
    have : (if c.id == pk then { c with name := nm } else c) ∈
        cats.map (fun d => if d.id == pk then { d with name := nm } else d) :=
      List.mem_map_of_mem _ hcmem
    rwa [if_pos (by simp [hcid])] at this

/-- C7: with the edited category looked up (id + owner), the rename fails
with DuplicateName exactly when some OTHER category of the same owner
already carries the new name (the edited one is excluded from the check);
when no other does, the rename goes through and the category carries the
new name — in particular, renaming a category to its own current name
succeeds whenever owner+name pairs are unique. -/
theorem rename_duplicate_excludes_self
    (cats : List Category) (u pk : Nat) (new_name : String) (c : Category)
    (hc : findCategory cats u pk = some c) :
    (renameCategory cats u pk new_name = .duplicateName ↔
      ∃ d ∈ cats, d.owner = u ∧ d.name = new_name ∧ d.id ≠ pk) ∧
    ((∀ d ∈ cats, d.owner = u → d.name = new_name → d.id = pk) →
      ∃ cats', renameCategory cats u pk new_name = .updated cats' ∧
        ∃ c' ∈ cats', c'.id = pk ∧ c'.name = new_name) ∧
    ((∀ d ∈ cats, ∀ e ∈ cats, d.owner = e.owner → d.name = e.name → d.id = e.id) →
      renameCategory cats u pk c.name ≠ .duplicateName) := by
  obtain ⟨hcmem, hcid, hcu⟩ := findCategory_mem hc
  refine ⟨renameCategory_dup_iff cats u pk new_name c hc,
    fun hno => renameCategory_updates cats u pk new_name c hc hno,
    fun huniq hdup => ?_⟩
  obtain ⟨d, hd, hdu, hdn, hdne⟩ := (renameCategory_dup_iff cats u pk c.name c hc).mp hdup
  exact hdne ((huniq d hd c hcmem (hdu.trans hcu.symm) hdn).trans hcid)

/-- C7 witness: one owner with categories "Work" (id 1) and "Home" (id 2);
renaming id 1 to "Home" collides, renaming it to its own name "Work"
succeeds. -/
theorem rename_duplicate_excludes_self_witness :
    (renameCategory [⟨1, 1, "Work"⟩, ⟨2, 1, "Home"⟩] 1 1 "Home" = .duplicateName ↔
      ∃ d ∈ [(⟨1, 1, "Work"⟩ : Category), ⟨2, 1, "Home"⟩],
        d.owner = 1 ∧ d.name = "Home" ∧ d.id ≠ 1) ∧
    ((∀ d ∈ [(⟨1, 1, "Work"⟩ : Category), ⟨2, 1, "Home"⟩],
        d.owner = 1 → d.name = "Home" → d.id = 1) →
      ∃ cats', renameCategory [⟨1, 1, "Work"⟩, ⟨2, 1, "Home"⟩] 1 1 "Home" = .updated cats' ∧
        ∃ c' ∈ cats', c'.id = 1 ∧ c'.name = "Home") ∧
    ((∀ d ∈ [(⟨1, 1, "Work"⟩ : Category), ⟨2, 1, "Home"⟩],
        ∀ e ∈ [(⟨1, 1, "Work"⟩ : Category), ⟨2, 1, "Home"⟩],
        d.owner = e.owner → d.name = e.name → d.id = e.id) →
      renameCategory [⟨1, 1, "Work"⟩, ⟨2, 1, "Home"⟩] 1 1
          (Category.name ⟨1, 1, "Work"⟩) ≠ .duplicateName) :=
  rename_duplicate_excludes_self [⟨1, 1, "Work"⟩, ⟨2, 1, "Home"⟩] 1 1 "Home"
    ⟨1, 1, "Work"⟩ (by decide)

/-- C8: deleting an owned category removes only the category; every task
that referenced it is kept, with its category reference cleared and every
other field unchanged, and tasks that referenced something else (or
nothing) are kept untouched; no task is deleted. -/
theorem delete_category_detaches_but_keeps_tasks
    (cats : List Category) (tasks : List Task) (u pk : Nat)
    (cats' : List Category) (tasks' : List Task)
    (h : deleteCategory cats tasks u pk = some (cats', tasks')) :
    (∀ c ∈ cats', c.id ≠ pk) ∧
    tasks'.length = tasks.length ∧
    (∀ t ∈ tasks, t.category = some pk →
      ∃ t' ∈ tasks', t'.id = t.id ∧ t'.owner = t.owner ∧ t'.category = none ∧
        t'.title = t.title ∧ t'.description = t.description ∧ t'.priority = t.priority ∧
        t'.status = t.status ∧ t'.due_date = t.due_date ∧ t'.is_deleted = t.is_deleted ∧
        t'.deleted_at = t.deleted_at ∧ t'.created_at = t.created_at ∧
        t'.updated_at = t.updated_at) ∧
    (∀ t ∈ tasks, t.category ≠ some pk → t ∈ tasks') := by
  unfold deleteCategory at h
  cases hf : findCategory cats u pk with
  | none => rw [hf] at h; exact absurd h (by simp)
  | some c =>
    rw [hf] at h
    simp only [Option.some_inj, Prod.mk.injEq] at h
    obtain ⟨hcats, htasks⟩ := h
    refine ⟨?_, ?_, ?_, ?_⟩
    · intro d hd
      rw [← hcats] at hd
      have := (List.mem_filter.mp hd).2
      simpa using this
    · rw [← htasks]
      exact List.length_map _ _
    · intro t ht htc
      have hmem : (if t.category == some pk then { t with category := none } else t) ∈
          tasks.map (fun s => if s.category == some pk then { s with category := none } else s) :=
        List.mem_map_of_mem _ ht
      rw [if_pos (by simp [htc])] at hmem
      rw [← htasks]
      exact ⟨{ t with category := none }, hmem, rfl, rfl, rfl, rfl, rfl, rfl, rfl, rfl,
        rfl, rfl, rfl, rfl⟩
    · intro t ht htc
      have hmem : (if t.category == some pk then { t with category := none } else t) ∈
          tasks.map (fun s => if s.category == some pk then { s with category := none } else s) :=
        List.mem_map_of_mem _ ht
      rw [if_neg (by simp [htc])] at hmem
      rw [← htasks]
      exact hmem

/-- C8 witness: the spec's example — one category referenced by two tasks;
deleting it detaches both tasks and keeps them. -/
theorem delete_category_witness :
    (∀ c ∈ [(⟨2, 1, "Home"⟩ : Category)], c.id ≠ 1) ∧
    ([⟨10, 1, none, "a", none, "none", 0, none, false, none, 1, 0⟩,
      ⟨11, 1, none, "b", none, "none", 0, none, false, none, 2, 0⟩] : List Task).length =
      ([⟨10, 1, some 1, "a", none, "none", 0, none, false, none, 1, 0⟩,
        ⟨11, 1, some 1, "b", none, "none", 0, none, false, none, 2, 0⟩] : List Task).length ∧
    (∀ t ∈ ([⟨10, 1, some 1, "a", none, "none", 0, none, false, none, 1, 0⟩,
        ⟨11, 1, some 1, "b", none, "none", 0, none, false, none, 2, 0⟩] : List Task),
      t.category = some 1 →
      ∃ t' ∈ ([⟨10, 1, none, "a", none, "none", 0, none, false, none, 1, 0⟩,
          ⟨11, 1, none, "b", none, "none", 0, none, false, none, 2, 0⟩] : List Task),
        t'.id = t.id ∧ t'.owner = t.owner ∧ t'.category = none ∧
        t'.title = t.title ∧ t'.description = t.description ∧ t'.priority = t.priority ∧
        t'.status = t.status ∧ t'.due_date = t.due_date ∧ t'.is_deleted = t.is_deleted ∧
        t'.deleted_at = t.deleted_at ∧ t'.created_at = t.created_at ∧
        t'.updated_at = t.updated_at) ∧
    (∀ t ∈ ([⟨10, 1, some 1, "a", none, "none", 0, none, false, none, 1, 0⟩,
        ⟨11, 1, some 1, "b", none, "none", 0, none, false, none, 2, 0⟩] : List Task),
      t.category ≠ some 1 →
      t ∈ ([⟨10, 1, none, "a", none, "none", 0, none, false, none, 1, 0⟩,
        ⟨11, 1, none, "b", none, "none", 0, none, false, none, 2, 0⟩] : List Task)) :=
  delete_category_detaches_but_keeps_tasks
    [⟨1, 1, "Work"⟩, ⟨2, 1, "Home"⟩]
    [⟨10, 1, some 1, "a", none, "none", 0, none, false, none, 1, 0⟩,
     ⟨11, 1, some 1, "b", none, "none", 0, none, false, none, 2, 0⟩]
    1 1
    [⟨2, 1, "Home"⟩]
    [⟨10, 1, none, "a", none, "none", 0, none, false, none, 1, 0⟩,
     ⟨11, 1, none, "b", none, "none", 0, none, false, none, 2, 0⟩]
    (by decide)

/-- C9: soft-deleting and then restoring an active task (flag clear,
deletion timestamp absent) returns it to exactly its previous state in
every field except `updated_at`. -/
theorem soft_delete_then_restore_roundtrip (t : Task) (n1 n2 : Int)
    (h1 : t.is_deleted = false) (h2 : t.deleted_at = none) :
    restoreTask (softDeleteTask t n1) n2 = { t with updated_at := n2 } := by
  unfold restoreTask softDeleteTask
  cases t
  simp_all

/-- C9 witness: the round trip on a concrete active task. -/
theorem soft_delete_then_restore_roundtrip_witness :
    restoreTask
        (softDeleteTask ⟨1, 1, some 4, "a", some "d", "high", 1, some 9, false, none, 1, 0⟩ 5) 6
      = { (⟨1, 1, some 4, "a", some "d", "high", 1, some 9, false, none, 1, 0⟩ : Task) with
          updated_at := 6 } :=
  soft_delete_then_restore_roundtrip
    ⟨1, 1, some 4, "a", some "d", "high", 1, some 9, false, none, 1, 0⟩ 5 6 rfl rfl

/-- C10 (implicit): while a task is soft-deleted, the update and detail
lookups return NotFound even for its own owner — their querysets keep only
non-deleted tasks — while the restore/purge path's lookup (no `is_deleted`
condition) still finds an owned task with that id. -/
theorem soft_deleted_task_not_editable_or_viewable (store : List Task) (u pk : Nat)
    (hdel : ∀ t ∈ store, t.id = pk → t.is_deleted = true) :
    updateLookup store u pk = none ∧ detailLookup store u pk = none ∧
    ((∃ t ∈ store, t.id = pk ∧ t.owner = u) → (lookupTask store u pk).isSome = true) := by
  have hnone : (store.filter (fun t => t.owner == u && t.is_deleted == false)).find?
      (fun t => t.id == pk) = none := by
    rw [List.find?_eq_none]
    intro t htmem
    obtain ⟨htstore, hpred⟩ := List.mem_filter.mp htmem
    simp only [Bool.and_eq_true, beq_iff_eq] at hpred
    simp only [beq_iff_eq]
    intro hid
    rw [hdel t htstore hid] at hpred
    exact absurd hpred.2 (by simp)
  refine ⟨hnone, hnone, fun ⟨t, ht, hid, hu⟩ => ?_⟩
  unfold lookupTask
  rw [List.find?_isSome]
  exact ⟨t, ht, by simp [hid, hu]⟩

/-- C10 witness: a concrete soft-deleted owned task is invisible to the
update and detail lookups but found by the restore-path lookup. -/
theorem soft_deleted_task_not_editable_witness :
    updateLookup [⟨1, 1, none, "a", none, "none", 0, none, true, some 3, 1, 0⟩] 1 1 = none ∧
    detailLookup [⟨1, 1, none, "a", none, "none", 0, none, true, some 3, 1, 0⟩] 1 1 = none ∧
    ((∃ t ∈ [(⟨1, 1, none, "a", none, "none", 0, none, true, some 3, 1, 0⟩ : Task)],
        t.id = 1 ∧ t.owner = 1) →
      (lookupTask [⟨1, 1, none, "a", none, "none", 0, none, true, some 3, 1, 0⟩] 1 1).isSome
        = true) :=
  soft_deleted_task_not_editable_or_viewable
    [⟨1, 1, none, "a", none, "none", 0, none, true, some 3, 1, 0⟩] 1 1 (by decide)

end TaskApp
